import Mathlib

/-!
# Smart Time Estimator (`script.js`): a shallow embedding

Numbers are exact rationals (the JavaScript doubles of the page are read as the
reals they denote), strings are lists of characters, and the calls the script
makes into the browser (`Math.random`, `Math.sin`, `Date.now`, the viewport and
the card rectangle) are inputs of the model.
-/

namespace SmartTimeEstimator

/-! ## Estimator logic -/

/-- The object returned by `computeEstimate`: `{ hrs, mins, raw }`. -/
structure Estimate where
  hrs : ℤ
  mins : ℤ
  raw : ℚ
deriving DecidableEq

/-- `Math.floor`. -/
def mathFloor (x : ℚ) : ℤ := Int.floor x

/-- `Math.round`: the nearest integer, a tie going up (`floor (x + 1/2)`). -/
def mathRound (x : ℚ) : ℤ := Int.floor (x + 1 / 2)

/-- Truncation toward zero. -/
def truncQ (x : ℚ) : ℤ := if 0 ≤ x then Int.floor x else Int.ceil x

/-- The `%` operator on numbers: the remainder of the truncated division, with
the sign of the dividend. -/
def jsMod (a b : ℚ) : ℚ := a - b * (truncQ (a / b) : ℚ)

/-- `computeEstimate`, as a function of the four parsed inputs
`w = wood.value`, `c = complexity.value`, `s = size.value`, `t = tool.value`. -/
def computeEstimate (w c s t : ℚ) : Estimate :=
  let base := (s * c * w) / t
  let hrs := mathFloor (base / 60)
  let mins := mathRound (jsMod base 60)
  { hrs := hrs, mins := mins, raw := base }

/-! ## CSV quoting -/

/-- The character `"`. -/
def dq : Char := Char.ofNat 34

/-- `s.replace(/"/g, '""')`: every double quote is written twice. -/
def doubleQuotes : List Char → List Char
  | [] => []
  | c :: cs => if c = dq then dq :: dq :: doubleQuotes cs else c :: doubleQuotes cs

/-- `escapeCsv`: `'"' + ('' + s).replace(/"/g, '""') + '"'`. -/
def escapeCsv (s : List Char) : List Char := dq :: (doubleQuotes s ++ [dq])

/-- The field between the outer quotes: first and last character dropped. -/
def stripOuter (t : List Char) : List Char := (t.drop 1).dropLast

/-- Reading of the claim's words "replacing each `""` by `"`": a left-to-right
scan that turns every pair of adjacent double quotes into one. -/
def undoubleQuotes : List Char → List Char
  | [] => []
  | [c] => [c]
  | c :: d :: cs =>
    if c = dq ∧ d = dq then dq :: undoubleQuotes cs else c :: undoubleQuotes (d :: cs)

/-- Reading of the claim's words "every double quote occurs as part of a doubled
pair": scanning from the left, a double quote is always followed by a second
one, and the two are consumed together. -/
def quotesPaired : List Char → Bool
  | [] => true
  | [c] => !(c == dq)
  | c :: d :: cs => if c = dq then (d == dq) && quotesPaired cs else quotesPaired (d :: cs)

/-! ## The animation engine: data -/

/-- An element of `dustParticles`: `{ x, y, r, vy, alpha }`. -/
structure DustParticle where
  x : ℚ
  y : ℚ
  r : ℚ
  vy : ℚ
  alpha : ℚ
deriving DecidableEq

/-- An element of `confettiParticles`: `{ x, y, vx, vy, r, color, rot, vr }`;
`hue` is the random hue `h` of the colour string `hsl(h, 80%, 60%)`. -/
structure ConfParticle where
  x : ℚ
  y : ℚ
  vx : ℚ
  vy : ℚ
  r : ℚ
  hue : ℚ
  rot : ℚ
  vr : ℚ
deriving DecidableEq

/-- The calls the script makes on a 2D drawing context, in the order made.
`rotateDeg d` is `rotate(d * Math.PI / 180)`, `fillStyleHsl h` the assignment
`fillStyle = hsl(h, 80%, 60%)`, `fillStyleRgba a` the assignment
`fillStyle = rgba(255,240,220,a)`, and `arc x y r` the full circle
`arc(x, y, r, 0, Math.PI * 2)`. -/
inductive CanvasOp where
  | clearRect (x y w h : ℚ)
  | save
  | restore
  | translate (x y : ℚ)
  | rotateDeg (d : ℚ)
  | fillStyleHsl (h : ℚ)
  | fillStyleRgba (a : ℚ)
  | fillRect (x y w h : ℚ)
  | beginPath
  | arc (x y r : ℚ)
  | fill
deriving DecidableEq

/-- A canvas element: its pixel size (the `width` and `height` attributes, which
the browser keeps as non-negative integers) and the inline style the script
writes (`style.left`, `style.top` in px, `style.position = 'absolute'`). -/
structure Canvas where
  width : ℕ
  height : ℕ
  left : Option ℚ
  top : Option ℚ
  absolute : Bool
deriving DecidableEq

/-- The result of `getBoundingClientRect()`. -/
structure Rect where
  left : ℚ
  top : ℚ
  width : ℚ
  height : ℚ
deriving DecidableEq

/-- A running `setInterval` callback of `drawConfettiOnce`: the timer id and the
two values its closure captured, `start` and `duration` (milliseconds). -/
structure Interval where
  id : ℕ
  start : ℤ
  duration : ℤ
deriving DecidableEq

/-- What the browser supplies: the viewport size, the bounding rectangle of
`#estimator-card`, the k-th value returned by `Math.random` (k counts the calls
made since the page loaded) and `Math.sin`. -/
structure Host where
  innerWidth : ℕ
  innerHeight : ℕ
  rect : Rect
  random : ℕ → ℚ
  sin : ℚ → ℚ

/-- The state the animation code reads and writes. `dustCtx` and `confettiCtx`
say whether `getContext('2d')` returned a context; the canvas elements
themselves exist in every state in which the functions below can run (the
script dereferences both while loading). `intervals` are the repeating
callbacks that are scheduled, `frames` the pending
`requestAnimationFrame(animateDust)` requests, `resizeListeners` the listeners
`startDust` has added, `successPlays` the calls of `safePlay(sndSuccess)` made
by `triggerConfetti`, `draws` the number of `Math.random` calls so far, and the
two logs the drawing calls made on each context, oldest first. -/
structure World where
  dustCtx : Bool
  confettiCtx : Bool
  dustCanvas : Canvas
  confettiCanvas : Canvas
  dustParticles : List DustParticle
  confettiParticles : List ConfParticle
  intervals : List Interval
  nextTimer : ℕ
  frames : ℕ
  resizeListeners : ℕ
  successPlays : ℕ
  draws : ℕ
  dustLog : List CanvasOp
  confettiLog : List CanvasOp

/-! ## Surface sizing -/

/-- Conversion of a number to the IDL type `unsigned long`: truncate, then
reduce modulo 2^32. -/
def toUnsignedLong (q : ℚ) : ℕ := (truncQ q % 4294967296).toNat

/-- Assignment to a canvas `width` or `height`: the value is converted to
`unsigned long`; a result above 2147483647 is replaced by the attribute's
default (300 for `width`, 150 for `height`). -/
def setDim (dflt : ℕ) (q : ℚ) : ℕ :=
  if toUnsignedLong q ≤ 2147483647 then toUnsignedLong q else dflt

/-- `resizeCanvases`. Both `if (confettiCanvas)` and `if (dustCanvas)` hold, the
elements being present. -/
def resizeCanvases (host : Host) (w : World) : World :=
  { w with
    confettiCanvas :=
      { w.confettiCanvas with
        width := setDim 300 host.innerWidth
        height := setDim 150 host.innerHeight }
    dustCanvas :=
      { width := setDim 300 host.rect.width
        height := setDim 150 host.rect.height
        left := some host.rect.left
        top := some host.rect.top
        absolute := true } }

/-! ## Confetti -/

/-- `randomConf`, on a canvas of size `W` x `H`, when `k` random numbers have
been drawn before: the eight draws are made in the order of the fields. -/
def randomConf (host : Host) (W H : ℕ) (k : ℕ) : ConfParticle :=
  { x := host.random k * W
    y := -(host.random (k + 1)) * H
    vx := (host.random (k + 2) - 1 / 2) * 4
    vy := host.random (k + 3) * 3 + 2
    r := host.random (k + 4) * 8 + 4
    hue := host.random (k + 5) * 360
    rot := host.random (k + 6) * 360
    vr := host.random (k + 7) * 6 - 3 }

/-- The loop of `initConfetti`: `n` pushes of `randomConf()`. -/
def confBatch (host : Host) (W H : ℕ) : ℕ → ℕ → List ConfParticle
  | 0, _ => []
  | n + 1, k => randomConf host W H k :: confBatch host W H n (k + 8)

/-- `initConfetti`. -/
def initConfetti (host : Host) (w : World) : World :=
  if !w.confettiCtx then w
  else
    { w with
      confettiParticles := confBatch host w.confettiCanvas.width w.confettiCanvas.height 140 w.draws
      draws := w.draws + 8 * 140 }

/-- The body of the `forEach` in the interval callback, for one particle: the
particle after the body, the drawing calls made, and the number of random draws
made so far. -/
def confEach (host : Host) (W H : ℕ) (k : ℕ) (p : ConfParticle) :
    ConfParticle × List CanvasOp × ℕ :=
  let p1 : ConfParticle := { p with x := p.x + p.vx, y := p.y + p.vy, rot := p.rot + p.vr }
  let ops : List CanvasOp :=
    [CanvasOp.save, CanvasOp.translate p1.x p1.y, CanvasOp.rotateDeg p1.rot,
     CanvasOp.fillStyleHsl p1.hue,
     CanvasOp.fillRect (-p1.r / 2) (-p1.r / 2) p1.r (p1.r * (7 / 5)), CanvasOp.restore]
  if p1.y > (H : ℚ) + 30 then
    ({ randomConf host W H k with y := -10 }, ops, k + 8)
  else (p1, ops, k)

/-- The `forEach` over `confettiParticles`. -/
def confAll (host : Host) (W H : ℕ) : ℕ → List ConfParticle →
    List ConfParticle × List CanvasOp × ℕ
  | k, [] => ([], [], k)
  | k, p :: ps =>
    let r := confEach host W H k p
    let rest := confAll host W H r.2.2 ps
    (r.1 :: rest.1, r.2.1 ++ rest.2.1, rest.2.2)

/-- One run of the callback that `drawConfettiOnce` passes to `setInterval`, for
the interval `iv`, when `Date.now()` returns `now`. -/
def intervalTick (host : Host) (now : ℤ) (iv : Interval) (w : World) : World :=
  let W := w.confettiCanvas.width
  let H := w.confettiCanvas.height
  let clear := CanvasOp.clearRect 0 0 W H
  let r := confAll host W H w.draws w.confettiParticles
  let w1 : World :=
    { w with
      confettiParticles := r.1
      draws := r.2.2
      confettiLog := w.confettiLog ++ [clear] ++ r.2.1 }
  if now - iv.start > iv.duration then
    { w1 with
      intervals := w1.intervals.filter (fun j => j.id ≠ iv.id)
      confettiLog := w1.confettiLog ++ [clear] }
  else w1

/-- `drawConfettiOnce(duration)` when `Date.now()` returns `now`. -/
def drawConfettiOnce (host : Host) (duration : ℤ) (now : ℤ) (w : World) : World :=
  if !w.confettiCtx then w
  else
    let w1 := initConfetti host w
    { w1 with
      intervals := w1.intervals ++ [{ id := w1.nextTimer, start := now, duration := duration }]
      nextTimer := w1.nextTimer + 1 }

/-- `triggerConfetti`: `safePlay(sndSuccess); drawConfettiOnce(3000)`. -/
def triggerConfetti (host : Host) (now : ℤ) (w : World) : World :=
  drawConfettiOnce host 3000 now { w with successPlays := w.successPlays + 1 }

/-- The timer with id `id` fires: its callback runs if it is still scheduled. -/
def fireTimer (host : Host) (now : ℤ) (id : ℕ) (w : World) : World :=
  match w.intervals.find? (fun j => j.id = id) with
  | none => w
  | some iv => intervalTick host now iv w

/-- The first `n` firings of timer `id`, set at time `t0` with a period of
16 ms: firing `k` happens at `t0 + 16 * k`. -/
def runTicks (host : Host) (t0 : ℤ) (id : ℕ) : ℕ → World → World
  | 0, w => w
  | n + 1, w => fireTimer host (t0 + 16 * ((n : ℤ) + 1)) id (runTicks host t0 id n w)

/-! ## Dust -/

/-- One push of the loop of `startDust`, on a canvas of size `W` x `H`, when
`k` random numbers have been drawn before. -/
def newDust (host : Host) (W H : ℕ) (k : ℕ) : DustParticle :=
  { x := host.random k * W
    y := host.random (k + 1) * H
    r := host.random (k + 2) * 2 + 1 / 2
    vy := host.random (k + 3) * (1 / 2) + 1 / 10
    alpha := host.random (k + 4) * (3 / 5) + 3 / 25 }

/-- The loop of `startDust`: `n` pushes. -/
def dustBatch (host : Host) (W H : ℕ) : ℕ → ℕ → List DustParticle
  | 0, _ => []
  | n + 1, k => newDust host W H k :: dustBatch host W H n (k + 5)

/-- `startDust`. -/
def startDust (host : Host) (w : World) : World :=
  if !w.dustCtx then w
  else
    let w1 := resizeCanvases host w
    { w1 with
      dustParticles := dustBatch host w1.dustCanvas.width w1.dustCanvas.height 55 w1.draws
      draws := w1.draws + 5 * 55
      frames := w1.frames + 1
      resizeListeners := w1.resizeListeners + 1 }

/-- The body of the `forEach` in `animateDust`, for one particle: the particle
after the body, the drawing calls made, and the number of random draws so far. -/
def dustEach (host : Host) (W H : ℕ) (k : ℕ) (p : DustParticle) :
    DustParticle × List CanvasOp × ℕ :=
  let ops : List CanvasOp :=
    [CanvasOp.beginPath, CanvasOp.fillStyleRgba p.alpha, CanvasOp.arc p.x p.y p.r, CanvasOp.fill]
  let y1 := p.y - p.vy
  let x1 := p.x + host.sin (y1 * (1 / 100)) * (3 / 10)
  if y1 < -6 then
    ({ p with y := (H : ℚ) + 6, x := host.random k * W }, ops, k + 1)
  else ({ p with y := y1, x := x1 }, ops, k)

/-- The `forEach` over `dustParticles`. -/
def dustAll (host : Host) (W H : ℕ) : ℕ → List DustParticle →
    List DustParticle × List CanvasOp × ℕ
  | k, [] => ([], [], k)
  | k, p :: ps =>
    let r := dustEach host W H k p
    let rest := dustAll host W H r.2.2 ps
    (r.1 :: rest.1, r.2.1 ++ rest.2.1, rest.2.2)

/-- `animateDust`: one frame. -/
def animateDust (host : Host) (w : World) : World :=
  if !w.dustCtx then w
  else
    let W := w.dustCanvas.width
    let H := w.dustCanvas.height
    let r := dustAll host W H w.draws w.dustParticles
    { w with
      dustParticles := r.1
      draws := r.2.2
      dustLog := w.dustLog ++ [CanvasOp.clearRect 0 0 W H] ++ r.2.1
      frames := w.frames + 1 }

/-- The first `n` frames after `startDust`. -/
def runFrames (host : Host) : ℕ → World → World
  | 0, w => w
  | n + 1, w => animateDust host (runFrames host n w)

/-- A list of interval firings `(now, iv)`, run in order. -/
def runIntervalTicks (host : Host) : List (ℤ × Interval) → World → World
  | [], w => w
  | t :: ts, w => runIntervalTicks host ts (intervalTick host t.1 t.2 w)

/-- Position of an ambient particle within the surface: `0 <= x <= W` and
`0 <= y <= H`. -/
def inSurface (W H : ℕ) (p : DustParticle) : Prop :=
  0 ≤ p.x ∧ p.x ≤ W ∧ 0 ≤ p.y ∧ p.y ≤ H

/-- Position of an ambient particle within the band the wraparound keeps it in:
`-6 <= y <= H + 6`. -/
def inBand (H : ℕ) (p : DustParticle) : Prop :=
  -6 ≤ p.y ∧ p.y ≤ (H : ℚ) + 6

/-- Every value returned by `Math.random` lies in `[0, 1)`. -/
def UnitRandom (host : Host) : Prop := ∀ k, 0 ≤ host.random k ∧ host.random k < 1

/-- A page state for examples: both contexts available, canvases at their
default size, nothing scheduled. -/
def world0 : World :=
  { dustCtx := true, confettiCtx := true
    dustCanvas := { width := 300, height := 150, left := none, top := none, absolute := false }
    confettiCanvas := { width := 300, height := 150, left := none, top := none, absolute := false }
    dustParticles := [], confettiParticles := []
    intervals := [], nextTimer := 1, frames := 0, resizeListeners := 0
    successPlays := 0, draws := 0, dustLog := [], confettiLog := [] }

/-- The state `world0` with neither drawing context available. -/
def worldNoCtx : World := { world0 with dustCtx := false, confettiCtx := false }

/-- A host for examples: an 800 x 600 viewport, the card at (10, 20) with size
`rw` x `rh`, `Math.random` always returning `rnd`, and `Math.sin` read as 0. -/
def hostOf (rw rh rnd : ℚ) : Host :=
  { innerWidth := 800, innerHeight := 600
    rect := { left := 10, top := 20, width := rw, height := rh }
    random := fun _ => rnd
    sin := fun _ => 0 }

/-- An event of the burst animator: `triggerConfetti()` called when `Date.now()`
returns `now`, or the timer `id` firing at time `now`. -/
inductive BurstEvent where
  | trigger (now : ℤ)
  | fire (now : ℤ) (id : ℕ)

/-- The effect of one event. -/
def burstStep (host : Host) (w : World) : BurstEvent → World
  | BurstEvent.trigger now => triggerConfetti host now w
  | BurstEvent.fire now id => fireTimer host now id w

/-- A sequence of events, run in order. -/
def burstRun (host : Host) : List BurstEvent → World → World
  | [], w => w
  | e :: es, w => burstRun host es (burstStep host w e)

/-- The number of `triggerConfetti()` calls in a sequence of events. -/
def triggerCount : List BurstEvent → ℕ
  | [] => 0
  | BurstEvent.trigger _ :: es => triggerCount es + 1
  | BurstEvent.fire _ _ :: es => triggerCount es

/-- A host like `hostOf`, with `s` for `Math.sin`. -/
def hostSin (s : ℚ → ℚ) (rw rh rnd : ℚ) : Host :=
  { hostOf rw rh rnd with sin := s }

/-- An ambient particle 0.1 px short of the wraparound line, rising 0.2 px a
frame. -/
def dustNearTop : DustParticle :=
  { x := 5, y := -59 / 10, r := 1, vy := 1 / 5, alpha := 1 / 2 }

/-- The state `world0` with a dust surface of width 0 (the card is not laid
out) holding the particle `dustNearTop`. -/
def worldZeroWidth : World :=
  { world0 with
    dustCanvas := { width := 0, height := 150, left := some 0, top := some 0, absolute := true }
    dustParticles := [dustNearTop] }

/-- The state `world0` holding the one ambient particle `dustNearTop`. -/
def worldOneDust : World := { world0 with dustParticles := [dustNearTop] }

/-- A burst particle 2 px above the recycling line of a surface of height 150,
falling 3 px a step. -/
def confNearBottom : ConfParticle :=
  { x := 40, y := 178, vx := 1, vy := 3, r := 8, hue := 200, rot := 90, vr := 2 }

/-- The state `world0` holding the one burst particle `confNearBottom`. -/
def worldOneConf : World := { world0 with confettiParticles := [confNearBottom] }

/-- The state `world0` with only the dust context unavailable. -/
def worldNoDustCtx : World := { world0 with dustCtx := false }

/-- The state `world0` with only the confetti context unavailable. -/
def worldNoConfettiCtx : World := { world0 with confettiCtx := false }

/-! ## Theorems: estimator -/

/-- C9: at `wood = 1`, `complexity = 1`, `size = 119`, `tool = 2` the base time is
59.5 minutes, and `computeEstimate` returns 0 hours and 60 minutes: the minutes
are rounded after the remainder is taken, and the carry into the hours is
missing. -/
theorem computeEstimate_sixty_minutes :
    computeEstimate 1 1 119 2 = { hrs := 0, mins := 60, raw := 119 / 2 } := by
  have h1 : mathFloor ((119 : ℚ) * 1 * 1 / 2 / 60) = 0 := by
    unfold mathFloor
    rw [Int.floor_eq_iff]
    constructor <;> norm_num
  have h2 : truncQ ((119 : ℚ) * 1 * 1 / 2 / 60) = 0 := by
    unfold truncQ
    rw [if_pos (by norm_num), Int.floor_eq_iff]
    constructor <;> norm_num
  have h3 : mathRound (jsMod ((119 : ℚ) * 1 * 1 / 2) 60) = 60 := by
    unfold mathRound jsMod
    rw [h2, Int.floor_eq_iff]
    constructor <;> norm_num
  simp only [computeEstimate, h1, h3]
  norm_num

/-! ## Theorems: CSV quoting -/

theorem stripOuter_escapeCsv (s : List Char) : stripOuter (escapeCsv s) = doubleQuotes s := by
  simp [stripOuter, escapeCsv]

theorem undoubleQuotes_cons_of_ne (c : Char) (hc : c ≠ dq) (t : List Char) :
    undoubleQuotes (c :: t) = c :: undoubleQuotes t := by
  cases t with
  | nil => simp [undoubleQuotes]
  | cons d t => simp [undoubleQuotes, hc]

theorem undoubleQuotes_doubleQuotes (s : List Char) : undoubleQuotes (doubleQuotes s) = s := by
  induction s with
  | nil => simp [doubleQuotes, undoubleQuotes]
  | cons c cs ih =>
    by_cases hc : c = dq
    · simp [doubleQuotes, undoubleQuotes, hc, ih]
    · simp [doubleQuotes, hc, undoubleQuotes_cons_of_ne c hc, ih]

theorem quotesPaired_cons_of_ne (c : Char) (hc : c ≠ dq) (t : List Char) :
    quotesPaired (c :: t) = quotesPaired t := by
  cases t with
  | nil => simp [quotesPaired, hc]
  | cons d t => simp [quotesPaired, hc]

theorem quotesPaired_doubleQuotes (s : List Char) : quotesPaired (doubleQuotes s) = true := by
  induction s with
  | nil => simp [doubleQuotes, quotesPaired]
  | cons c cs ih =>
    by_cases hc : c = dq
    · simp [doubleQuotes, quotesPaired, hc, ih]
    · simp [doubleQuotes, hc, quotesPaired_cons_of_ne c hc, ih]

/-- C10: `escapeCsv` is a lossless quoting. For every string `s` the result has
at least two characters, starts and ends with a double quote, every double
quote between the two delimiters is part of a doubled pair, and stripping the
outer quotes and replacing each doubled quote by one gives back `s`; hence
`escapeCsv` is injective. -/
theorem escapeCsv_lossless (s : List Char) :
    2 ≤ (escapeCsv s).length ∧
    (escapeCsv s).head? = some dq ∧
    (escapeCsv s).getLast? = some dq ∧
    quotesPaired (stripOuter (escapeCsv s)) = true ∧
    undoubleQuotes (stripOuter (escapeCsv s)) = s ∧
    (∀ t : List Char, escapeCsv s = escapeCsv t → s = t) := by
  refine ⟨?_, ?_, ?_, ?_, ?_, ?_⟩
  · simp [escapeCsv]
  · simp [escapeCsv]
  · simp [escapeCsv, List.getLast?_cons]
  · rw [stripOuter_escapeCsv]
    exact quotesPaired_doubleQuotes s
  · rw [stripOuter_escapeCsv]
    exact undoubleQuotes_doubleQuotes s
  · intro t h
    have h1 := congrArg (fun u => undoubleQuotes (stripOuter u)) h
    simp only [stripOuter_escapeCsv, undoubleQuotes_doubleQuotes] at h1
    exact h1

/-! ## Theorems: the particle loops -/

theorem dustBatch_length (host : Host) (W H : ℕ) :
    ∀ (n k : ℕ), (dustBatch host W H n k).length = n := by
  intro n
  induction n with
  | zero => intro k; rfl
  | succ n ih => intro k; simp [dustBatch, ih]

theorem dustBatch_mem (host : Host) (W H : ℕ) :
    ∀ (n k : ℕ) (p : DustParticle), p ∈ dustBatch host W H n k →
      ∃ j, p = newDust host W H j := by
  intro n
  induction n with
  | zero => intro k p hp; simp [dustBatch] at hp
  | succ n ih =>
    intro k p hp
    simp only [dustBatch, List.mem_cons] at hp
    rcases hp with h | h
    · exact ⟨k, h⟩
    · exact ih (k + 5) p h

theorem dustAll_length (host : Host) (W H : ℕ) :
    ∀ (ps : List DustParticle) (k : ℕ), (dustAll host W H k ps).1.length = ps.length := by
  intro ps
  induction ps with
  | nil => intro k; rfl
  | cons p ps ih => intro k; simp [dustAll, ih]

theorem dustAll_getElem? (host : Host) (W H : ℕ) :
    ∀ (ps : List DustParticle) (k i : ℕ) (p : DustParticle), ps[i]? = some p →
      ∃ j, (dustAll host W H k ps).1[i]? = some (dustEach host W H j p).1 := by
  intro ps
  induction ps with
  | nil => intro k i p hp; simp at hp
  | cons a ps ih =>
    intro k i p hp
    cases i with
    | zero =>
      simp only [List.getElem?_cons_zero, Option.some.injEq] at hp
      subst hp
      exact ⟨k, by simp [dustAll]⟩
    | succ i =>
      simp only [List.getElem?_cons_succ] at hp
      obtain ⟨j, hj⟩ := ih (dustEach host W H k a).2.2 i p hp
      exact ⟨j, by simpa [dustAll] using hj⟩

theorem dustAll_forall (host : Host) (W H : ℕ) (P : DustParticle → Prop)
    (hP : ∀ (k : ℕ) (p : DustParticle), P p → P (dustEach host W H k p).1) :
    ∀ (ps : List DustParticle) (k : ℕ), (∀ p ∈ ps, P p) →
      ∀ q ∈ (dustAll host W H k ps).1, P q := by
  intro ps
  induction ps with
  | nil => intro k _ q hq; simp [dustAll] at hq
  | cons a ps ih =>
    intro k h q hq
    simp only [dustAll, List.mem_cons] at hq
    rcases hq with hq | hq
    · subst hq
      exact hP k a (h a (List.mem_cons_self a ps))
    · exact ih _ (fun p hp => h p (List.mem_cons_of_mem a hp)) q hq

theorem confBatch_length (host : Host) (W H : ℕ) :
    ∀ (n k : ℕ), (confBatch host W H n k).length = n := by
  intro n
  induction n with
  | zero => intro k; rfl
  | succ n ih => intro k; simp [confBatch, ih]

theorem confAll_length (host : Host) (W H : ℕ) :
    ∀ (ps : List ConfParticle) (k : ℕ), (confAll host W H k ps).1.length = ps.length := by
  intro ps
  induction ps with
  | nil => intro k; rfl
  | cons p ps ih => intro k; simp [confAll, ih]

theorem confAll_getElem? (host : Host) (W H : ℕ) :
    ∀ (ps : List ConfParticle) (k i : ℕ) (p : ConfParticle), ps[i]? = some p →
      ∃ j, (confAll host W H k ps).1[i]? = some (confEach host W H j p).1 := by
  intro ps
  induction ps with
  | nil => intro k i p hp; simp at hp
  | cons a ps ih =>
    intro k i p hp
    cases i with
    | zero =>
      simp only [List.getElem?_cons_zero, Option.some.injEq] at hp
      subst hp
      exact ⟨k, by simp [confAll]⟩
    | succ i =>
      simp only [List.getElem?_cons_succ] at hp
      obtain ⟨j, hj⟩ := ih (confEach host W H k a).2.2 i p hp
      exact ⟨j, by simpa [confAll] using hj⟩

theorem animateDust_particles (host : Host) (w : World) (hc : w.dustCtx = true) :
    (animateDust host w).dustParticles =
      (dustAll host w.dustCanvas.width w.dustCanvas.height w.draws w.dustParticles).1 := by
  simp [animateDust, hc]

theorem animateDust_canvas (host : Host) (w : World) :
    (animateDust host w).dustCanvas = w.dustCanvas ∧
      (animateDust host w).dustCtx = w.dustCtx := by
  unfold animateDust
  split <;> simp

theorem intervalTick_particles (host : Host) (now : ℤ) (iv : Interval) (w : World) :
    (intervalTick host now iv w).confettiParticles =
      (confAll host w.confettiCanvas.width w.confettiCanvas.height w.draws
        w.confettiParticles).1 := by
  unfold intervalTick
  split <;> simp

theorem intervalTick_canvas (host : Host) (now : ℤ) (iv : Interval) (w : World) :
    (intervalTick host now iv w).confettiCanvas = w.confettiCanvas := by
  unfold intervalTick
  split <;> simp

theorem runFrames_length (host : Host) (w : World) (hc : w.dustCtx = true) :
    ∀ n : ℕ, (runFrames host n w).dustCtx = true ∧
      (runFrames host n w).dustParticles.length = w.dustParticles.length := by
  intro n
  induction n with
  | zero => exact ⟨hc, rfl⟩
  | succ n ih =>
    obtain ⟨h1, h2⟩ := ih
    refine ⟨?_, ?_⟩
    · rw [runFrames, (animateDust_canvas host _).2, h1]
    · rw [runFrames, animateDust_particles host _ h1, dustAll_length, h2]

theorem runIntervalTicks_length (host : Host) :
    ∀ (ticks : List (ℤ × Interval)) (w : World),
      (runIntervalTicks host ticks w).confettiParticles.length = w.confettiParticles.length := by
  intro ticks
  induction ticks with
  | nil => intro w; rfl
  | cons t ts ih =>
    intro w
    rw [runIntervalTicks, ih, intervalTick_particles, confAll_length]

/-- C1: with the drawing contexts available, `startDust()` leaves exactly 55
ambient particles and `initConfetti()` / `drawConfettiOnce()` exactly 140 burst
particles, and after any number `n` of `animateDust` frames, resp. any sequence
of interval callbacks, the arrays still hold exactly 55 and 140 particles,
whatever the random draws. -/
theorem particle_counts_constant (host : Host) (w : World) (n : ℕ)
    (ticks : List (ℤ × Interval)) (duration now : ℤ)
    (hd : w.dustCtx = true) (hc : w.confettiCtx = true) :
    (startDust host w).dustParticles.length = 55 ∧
    (runFrames host n (startDust host w)).dustParticles.length = 55 ∧
    (initConfetti host w).confettiParticles.length = 140 ∧
    (drawConfettiOnce host duration now w).confettiParticles.length = 140 ∧
    (runIntervalTicks host ticks (initConfetti host w)).confettiParticles.length = 140 ∧
    (runIntervalTicks host ticks
      (drawConfettiOnce host duration now w)).confettiParticles.length = 140 := by
  have h1 : (startDust host w).dustParticles.length = 55 := by
    simp [startDust, hd, dustBatch_length]
  have h1c : (startDust host w).dustCtx = true := by
    simp [startDust, hd, resizeCanvases]
  have h2 : (initConfetti host w).confettiParticles.length = 140 := by
    simp [initConfetti, hc, confBatch_length]
  have h3 : (drawConfettiOnce host duration now w).confettiParticles.length = 140 := by
    simp [drawConfettiOnce, initConfetti, hc, confBatch_length]
  refine ⟨h1, ?_, h2, h3, ?_, ?_⟩
  · rw [(runFrames_length host _ h1c n).2, h1]
  · rw [runIntervalTicks_length, h2]
  · rw [runIntervalTicks_length, h3]

/-- Witness for C1: the page state `world0`, three frames and two interval
callbacks. -/
theorem particle_counts_constant_witness :
    (runFrames (hostOf 300 150 0) 3 (startDust (hostOf 300 150 0) world0)).dustParticles.length
      = 55 ∧
    (runIntervalTicks (hostOf 300 150 0) [(16, ⟨1, 0, 3000⟩), (32, ⟨1, 0, 3000⟩)]
      (drawConfettiOnce (hostOf 300 150 0) 3000 0 world0)).confettiParticles.length = 140 :=
  ⟨(particle_counts_constant (hostOf 300 150 0) world0 3
      [(16, ⟨1, 0, 3000⟩), (32, ⟨1, 0, 3000⟩)] 3000 0 rfl rfl).2.1,
   (particle_counts_constant (hostOf 300 150 0) world0 3
      [(16, ⟨1, 0, 3000⟩), (32, ⟨1, 0, 3000⟩)] 3000 0 rfl rfl).2.2.2.2.2⟩

theorem dustEach_spec (host : Host) (W H k : ℕ) (p : DustParticle) :
    (p.y - p.vy < -6 →
      (dustEach host W H k p).1 = { p with y := (H : ℚ) + 6, x := host.random k * W }) ∧
    (¬ p.y - p.vy < -6 →
      (dustEach host W H k p).1 =
        { p with y := p.y - p.vy
                 x := p.x + host.sin ((p.y - p.vy) * (1 / 100)) * (3 / 10) }) := by
  constructor
  · intro h
    simp [dustEach, h]
  · intro h
    simp [dustEach, h]

/-- C4 as stated fails on a surface of width 0: the particle `dustNearTop`
crosses the line `y < -6`, is put at `y = height + 6`, and its new `x` is 0,
which is not in the empty interval `[0, 0)`. -/
theorem animateDust_wraparound_zero_width :
    dustNearTop.y - dustNearTop.vy < -6 ∧
    ∃ q : DustParticle,
      (animateDust (hostOf 0 150 (1 / 2)) worldZeroWidth).dustParticles = [q] ∧
      q.y = (worldZeroWidth.dustCanvas.height : ℚ) + 6 ∧
      ¬ (0 ≤ q.x ∧ q.x < (worldZeroWidth.dustCanvas.width : ℚ)) := by
  refine ⟨by norm_num [dustNearTop], ?_⟩
  have h : dustNearTop.y - dustNearTop.vy < -6 := by norm_num [dustNearTop]
  refine ⟨(dustEach (hostOf 0 150 (1 / 2)) 0 150 0 dustNearTop).1, ?_, ?_, ?_⟩
  · simp [animateDust, worldZeroWidth, world0, dustAll]
  · rw [(dustEach_spec (hostOf 0 150 (1 / 2)) 0 150 0 dustNearTop).1 h]
    simp [worldZeroWidth]
  · rw [(dustEach_spec (hostOf 0 150 (1 / 2)) 0 150 0 dustNearTop).1 h]
    simp [worldZeroWidth]

/-- C4, amended: in every `animateDust` frame, for every surface size, every
particle and random draws in `[0, 1)`: a particle whose decremented `y` is below
-6 ends the frame at `y = height + 6` with `x = r * width` for a draw `r`, so
`0 <= x <= width`, and `x < width` whenever the width is positive; a particle
whose decremented `y` is not below -6 is not repositioned (it keeps the
decremented `y` and the drifted `x`). -/
theorem animateDust_wraparound (host : Host) (w : World) (i : ℕ) (p : DustParticle)
    (hr : UnitRandom host) (hc : w.dustCtx = true) (hp : w.dustParticles[i]? = some p) :
    ∃ q : DustParticle, (animateDust host w).dustParticles[i]? = some q ∧
      (p.y - p.vy < -6 →
        q.y = (w.dustCanvas.height : ℚ) + 6 ∧
        (∃ j, q.x = host.random j * w.dustCanvas.width) ∧
        0 ≤ q.x ∧ q.x ≤ w.dustCanvas.width ∧
        (0 < w.dustCanvas.width → q.x < w.dustCanvas.width)) ∧
      (¬ p.y - p.vy < -6 →
        q.y = p.y - p.vy ∧
        q.x = p.x + host.sin ((p.y - p.vy) * (1 / 100)) * (3 / 10)) := by
  obtain ⟨j, hj⟩ := dustAll_getElem? host w.dustCanvas.width w.dustCanvas.height
    w.dustParticles w.draws i p hp
  refine ⟨_, by rw [animateDust_particles host w hc]; exact hj, ?_, ?_⟩
  · intro h
    rw [(dustEach_spec host _ _ j p).1 h]
    have hW : (0 : ℚ) ≤ (w.dustCanvas.width : ℚ) := Nat.cast_nonneg _
    obtain ⟨h0, h1⟩ := hr j
    refine ⟨rfl, ⟨j, rfl⟩, mul_nonneg h0 hW, ?_, ?_⟩
    · exact mul_le_of_le_one_left hW h1.le
    · intro hpos
      have hpos' : (0 : ℚ) < (w.dustCanvas.width : ℚ) := by exact_mod_cast hpos
      exact mul_lt_of_lt_one_left hpos' h1
  · intro h
    rw [(dustEach_spec host _ _ j p).2 h]
    exact ⟨rfl, rfl⟩

/-- Witness for C4: the particle `dustNearTop` on the 300 x 150 surface of
`worldOneDust`, every draw being 1/2: it is moved to `y = 156`, `x = 150`. -/
theorem animateDust_wraparound_witness :
    ∃ q : DustParticle,
      (animateDust (hostOf 300 150 (1 / 2)) worldOneDust).dustParticles[0]? = some q ∧
      q.y = 156 ∧ 0 ≤ q.x ∧ q.x < 300 := by
  obtain ⟨q, hq, h1, _⟩ := animateDust_wraparound (hostOf 300 150 (1 / 2)) worldOneDust 0
    dustNearTop (fun _ => by norm_num [hostOf]) rfl rfl
  obtain ⟨hy, _, hx0, _, hx1⟩ := h1 (by norm_num [dustNearTop])
  refine ⟨q, hq, ?_, hx0, ?_⟩
  · rw [hy]
    norm_num [worldOneDust, world0]
  · have := hx1 (by norm_num [worldOneDust, world0])
    simpa [worldOneDust, world0] using this

theorem confEach_spec (host : Host) (W H k : ℕ) (p : ConfParticle) :
    (p.y + p.vy > (H : ℚ) + 30 →
      (confEach host W H k p).1 = { randomConf host W H k with y := -10 }) ∧
    (¬ p.y + p.vy > (H : ℚ) + 30 →
      (confEach host W H k p).1 =
        { p with x := p.x + p.vx, y := p.y + p.vy, rot := p.rot + p.vr }) := by
  constructor
  · intro h
    simp [confEach, h]
  · intro h
    simp [confEach, h]

/-- C5: in every run of the interval callback, for every burst particle: if its
`y`, advanced by its velocity, exceeds the surface height + 30, the particle
ends the step as a fresh `randomConf()` result with `y` forced to exactly -10,
whatever the random values; otherwise its velocity, size and colour are
unchanged (its position and rotation are the advanced ones). -/
theorem intervalTick_recycle (host : Host) (now : ℤ) (iv : Interval) (w : World) (i : ℕ)
    (p : ConfParticle) (hp : w.confettiParticles[i]? = some p) :
    ∃ q : ConfParticle, (intervalTick host now iv w).confettiParticles[i]? = some q ∧
      (p.y + p.vy > (w.confettiCanvas.height : ℚ) + 30 →
        q.y = -10 ∧
        ∃ j, q = { randomConf host w.confettiCanvas.width w.confettiCanvas.height j
                   with y := -10 }) ∧
      (¬ p.y + p.vy > (w.confettiCanvas.height : ℚ) + 30 →
        q.vx = p.vx ∧ q.vy = p.vy ∧ q.r = p.r ∧ q.hue = p.hue ∧
        q.x = p.x + p.vx ∧ q.y = p.y + p.vy ∧ q.rot = p.rot + p.vr ∧ q.vr = p.vr) := by
  obtain ⟨j, hj⟩ := confAll_getElem? host w.confettiCanvas.width w.confettiCanvas.height
    w.confettiParticles w.draws i p hp
  refine ⟨_, by rw [intervalTick_particles]; exact hj, ?_, ?_⟩
  · intro h
    rw [(confEach_spec host _ _ j p).1 h]
    exact ⟨rfl, j, rfl⟩
  · intro h
    rw [(confEach_spec host _ _ j p).2 h]
    exact ⟨rfl, rfl, rfl, rfl, rfl, rfl, rfl, rfl⟩

/-- Witness for C5: the particle `confNearBottom` on the 300 x 150 surface of
`worldOneConf`, in a callback run 16 ms after the trigger: it is recycled to
`y = -10`. -/
theorem intervalTick_recycle_witness :
    ∃ q : ConfParticle,
      (intervalTick (hostOf 300 150 (1 / 2)) 16 ⟨1, 0, 3000⟩
        worldOneConf).confettiParticles[0]? = some q ∧ q.y = -10 := by
  obtain ⟨q, hq, h1, _⟩ := intervalTick_recycle (hostOf 300 150 (1 / 2)) 16 ⟨1, 0, 3000⟩
    worldOneConf 0 confNearBottom rfl
  exact ⟨q, hq, (h1 (by norm_num [confNearBottom, worldOneConf, world0])).1⟩

/-! ## Theorems: the ambient invariant -/

theorem newDust_inSurface (host : Host) (hr : UnitRandom host) (W H k : ℕ) :
    inSurface W H (newDust host W H k) ∧ 0 ≤ (newDust host W H k).vy := by
  have hW : (0 : ℚ) ≤ (W : ℚ) := Nat.cast_nonneg _
  have hH : (0 : ℚ) ≤ (H : ℚ) := Nat.cast_nonneg _
  obtain ⟨a0, a1⟩ := hr k
  obtain ⟨b0, b1⟩ := hr (k + 1)
  obtain ⟨c0, _⟩ := hr (k + 3)
  refine ⟨⟨mul_nonneg a0 hW, mul_le_of_le_one_left hW a1.le, mul_nonneg b0 hH,
    mul_le_of_le_one_left hH b1.le⟩, ?_⟩
  show 0 ≤ host.random (k + 3) * (1 / 2) + 1 / 10
  linarith

theorem dustEach_inBand (host : Host) (W H k : ℕ) (p : DustParticle)
    (h : inBand H p ∧ 0 ≤ p.vy) :
    inBand H (dustEach host W H k p).1 ∧ 0 ≤ (dustEach host W H k p).1.vy := by
  obtain ⟨⟨h1, h2⟩, h3⟩ := h
  have hH : (0 : ℚ) ≤ (H : ℚ) := Nat.cast_nonneg _
  by_cases hy : p.y - p.vy < -6
  · rw [(dustEach_spec host W H k p).1 hy]
    refine ⟨⟨?_, ?_⟩, h3⟩
    · show -6 ≤ (H : ℚ) + 6
      linarith
    · show (H : ℚ) + 6 ≤ (H : ℚ) + 6
      exact le_refl _
  · rw [(dustEach_spec host W H k p).2 hy]
    refine ⟨⟨?_, ?_⟩, h3⟩
    · show -6 ≤ p.y - p.vy
      linarith [not_lt.mp hy]
    · show p.y - p.vy ≤ (H : ℚ) + 6
      linarith

theorem startDust_particles (host : Host) (w : World) (hc : w.dustCtx = true) :
    (startDust host w).dustCtx = true ∧
    (startDust host w).dustParticles =
      dustBatch host (startDust host w).dustCanvas.width
        (startDust host w).dustCanvas.height 55 w.draws := by
  simp [startDust, hc, resizeCanvases]

theorem runFrames_inBand (host : Host) (w : World) (hc : w.dustCtx = true)
    (h : ∀ p ∈ w.dustParticles, inBand w.dustCanvas.height p ∧ 0 ≤ p.vy) :
    ∀ n : ℕ, (runFrames host n w).dustCtx = true ∧
      (runFrames host n w).dustCanvas = w.dustCanvas ∧
      ∀ p ∈ (runFrames host n w).dustParticles, inBand w.dustCanvas.height p ∧ 0 ≤ p.vy := by
  intro n
  induction n with
  | zero => exact ⟨hc, rfl, h⟩
  | succ n ih =>
    obtain ⟨h1, h2, h3⟩ := ih
    refine ⟨?_, ?_, ?_⟩
    · rw [runFrames, (animateDust_canvas host _).2, h1]
    · rw [runFrames, (animateDust_canvas host _).1, h2]
    · rw [runFrames, animateDust_particles host _ h1, h2]
      exact dustAll_forall host _ _ (fun p => inBand w.dustCanvas.height p ∧ 0 ≤ p.vy)
        (fun k p hp => dustEach_inBand host _ _ k p hp) _ _ h3

/-- C7 as stated fails: on a 300 x 150 surface with every random draw 0, the
particles `startDust` creates sit at `y = 0` with drift speed 0.1, and after
one `animateDust` frame they are at `y = -0.1`, above the surface, whatever
`Math.sin` returns. -/
theorem ambient_leaves_surface :
    ¬ ∃ s : ℚ → ℚ, ∀ p ∈ (animateDust (hostSin s 300 150 0)
        (startDust (hostSin s 300 150 0) world0)).dustParticles,
      inSurface (startDust (hostSin s 300 150 0) world0).dustCanvas.width
        (startDust (hostSin s 300 150 0) world0).dustCanvas.height p := by
  rintro ⟨s, hs⟩
  have hc := (startDust_particles (hostSin s 300 150 0) world0 rfl)
  have hmem : (dustEach (hostSin s 300 150 0)
      (startDust (hostSin s 300 150 0) world0).dustCanvas.width
      (startDust (hostSin s 300 150 0) world0).dustCanvas.height
      (startDust (hostSin s 300 150 0) world0).draws
      (newDust (hostSin s 300 150 0)
        (startDust (hostSin s 300 150 0) world0).dustCanvas.width
        (startDust (hostSin s 300 150 0) world0).dustCanvas.height 0)).1 ∈
      (animateDust (hostSin s 300 150 0)
        (startDust (hostSin s 300 150 0) world0)).dustParticles := by
    rw [animateDust_particles _ _ hc.1, hc.2]
    exact List.mem_cons_self _ _
  have h := (hs _ hmem).2.2.1
  have hy : ¬ (newDust (hostSin s 300 150 0)
        (startDust (hostSin s 300 150 0) world0).dustCanvas.width
        (startDust (hostSin s 300 150 0) world0).dustCanvas.height 0).y -
      (newDust (hostSin s 300 150 0)
        (startDust (hostSin s 300 150 0) world0).dustCanvas.width
        (startDust (hostSin s 300 150 0) world0).dustCanvas.height 0).vy < -6 := by
    norm_num [newDust, hostSin, hostOf]
  rw [(dustEach_spec _ _ _ _ _).2 hy] at h
  norm_num [newDust, hostSin, hostOf] at h

/-- C7, amended: with random draws in `[0, 1)`, every ambient particle created
by `startDust` on a surface of width `W` and height `H` lies within the surface
(`0 <= x <= W`, `0 <= y <= H`), and after every number of `animateDust` frames,
the surface size being unchanged, its `y` lies within the wraparound band
`-6 <= y <= H + 6`. -/
theorem ambient_band_invariant (host : Host) (w : World) (n : ℕ)
    (hr : UnitRandom host) (hc : w.dustCtx = true) :
    (∀ p ∈ (startDust host w).dustParticles,
      inSurface (startDust host w).dustCanvas.width (startDust host w).dustCanvas.height p) ∧
    (runFrames host n (startDust host w)).dustCanvas = (startDust host w).dustCanvas ∧
    (∀ p ∈ (runFrames host n (startDust host w)).dustParticles,
      inBand (startDust host w).dustCanvas.height p) := by
  obtain ⟨h1, h2⟩ := startDust_particles host w hc
  have hs : ∀ p ∈ (startDust host w).dustParticles,
      inSurface (startDust host w).dustCanvas.width (startDust host w).dustCanvas.height p ∧
        0 ≤ p.vy := by
    intro p hp
    rw [h2] at hp
    obtain ⟨j, rfl⟩ := dustBatch_mem host _ _ _ _ p hp
    exact newDust_inSurface host hr _ _ j
  have hb : ∀ p ∈ (startDust host w).dustParticles,
      inBand (startDust host w).dustCanvas.height p ∧ 0 ≤ p.vy := by
    intro p hp
    obtain ⟨⟨_, _, h3, h4⟩, h5⟩ := hs p hp
    exact ⟨⟨by linarith, by linarith⟩, h5⟩
  obtain ⟨_, k2, k3⟩ := runFrames_inBand host (startDust host w) h1 hb n
  exact ⟨fun p hp => (hs p hp).1, k2, fun p hp => (k3 p hp).1⟩

/-- Witness for C7: the page state `world0`, a 300 x 150 card, every draw 1/2,
four frames. -/
theorem ambient_band_invariant_witness :
    (runFrames (hostOf 300 150 (1 / 2)) 4
        (startDust (hostOf 300 150 (1 / 2)) world0)).dustCanvas =
      (startDust (hostOf 300 150 (1 / 2)) world0).dustCanvas ∧
    ∀ p ∈ (runFrames (hostOf 300 150 (1 / 2)) 4
        (startDust (hostOf 300 150 (1 / 2)) world0)).dustParticles,
      inBand (startDust (hostOf 300 150 (1 / 2)) world0).dustCanvas.height p :=
  (ambient_band_invariant (hostOf 300 150 (1 / 2)) world0 4
    (fun _ => by norm_num [hostOf]) rfl).2

/-! ## Theorems: surface sizing -/

theorem setDim_floor (dflt : ℕ) (q : ℚ) (h0 : 0 ≤ q) (h1 : q < 2147483648) :
    ((setDim dflt q : ℕ) : ℤ) = Int.floor q := by
  have hf0 : 0 ≤ Int.floor q := Int.floor_nonneg.mpr h0
  have hf1 : Int.floor q < 2147483648 := by
    have : (Int.floor q : ℚ) ≤ q := Int.floor_le q
    have h2 : ((Int.floor q : ℤ) : ℚ) < ((2147483648 : ℤ) : ℚ) := by
      push_cast
      linarith
    exact_mod_cast h2
  have ht : truncQ q = Int.floor q := by simp [truncQ, h0]
  have hm : Int.floor q % 4294967296 = Int.floor q :=
    Int.emod_eq_of_lt hf0 (by omega)
  have hu : ((toUnsignedLong q : ℕ) : ℤ) = Int.floor q := by
    unfold toUnsignedLong
    rw [ht, hm, Int.toNat_of_nonneg hf0]
  have hle : toUnsignedLong q ≤ 2147483647 := by omega
  simp only [setDim, if_pos hle]
  exact hu

theorem setDim_natCast (dflt n : ℕ) (hn : n ≤ 2147483647) : setDim dflt (n : ℚ) = n := by
  have h := setDim_floor dflt (n : ℚ) (Nat.cast_nonneg n)
    (by
      have : (n : ℚ) ≤ 2147483647 := by exact_mod_cast hn
      linarith)
  rw [Int.floor_natCast] at h
  exact_mod_cast h

/-- C6 as stated fails for a rectangle that is not a whole number of pixels
wide: for a card 300.5 px wide and 150.5 px high the dust surface gets the pixel
size 300 x 150. -/
theorem resizeCanvases_truncates :
    ((resizeCanvases (hostOf (601 / 2) (301 / 2) 0) world0).dustCanvas.width : ℚ) ≠
        (hostOf (601 / 2) (301 / 2) 0).rect.width ∧
    (resizeCanvases (hostOf (601 / 2) (301 / 2) 0) world0).dustCanvas.width = 300 ∧
    (resizeCanvases (hostOf (601 / 2) (301 / 2) 0) world0).dustCanvas.height = 150 := by
  have hw : ((setDim 300 (601 / 2 : ℚ) : ℕ) : ℤ) = 300 := by
    rw [setDim_floor 300 (601 / 2) (by norm_num) (by norm_num), Int.floor_eq_iff]
    constructor <;> norm_num
  have hh : ((setDim 150 (301 / 2 : ℚ) : ℕ) : ℤ) = 150 := by
    rw [setDim_floor 150 (301 / 2) (by norm_num) (by norm_num), Int.floor_eq_iff]
    constructor <;> norm_num
  have hw' : setDim 300 (601 / 2 : ℚ) = 300 := by exact_mod_cast hw
  have hh' : setDim 150 (301 / 2 : ℚ) = 150 := by exact_mod_cast hh
  refine ⟨?_, ?_, ?_⟩
  · show ((setDim 300 (601 / 2 : ℚ) : ℕ) : ℚ) ≠ 601 / 2
    rw [hw']
    norm_num
  · exact hw'
  · exact hh'

/-- C6, amended: for every anchor rectangle of non-negative width and height
below 2^31 and every viewport of inner size at most 2^31 - 1, `resizeCanvases()`
leaves the dust surface with pixel width and height equal to the rectangle's
width and height rounded down to whole pixels, hence exactly equal to them when
they are whole numbers (the 0 x 0 rectangle included), with left / top offset
equal to the rectangle's left / top and absolute positioning, and sets the burst
surface's width / height to the viewport's inner width / height. -/
theorem resizeCanvases_geometry (host : Host) (w : World)
    (hw0 : 0 ≤ host.rect.width) (hw1 : host.rect.width < 2147483648)
    (hh0 : 0 ≤ host.rect.height) (hh1 : host.rect.height < 2147483648)
    (hiw : host.innerWidth ≤ 2147483647) (hih : host.innerHeight ≤ 2147483647) :
    ((resizeCanvases host w).dustCanvas.width : ℤ) = Int.floor host.rect.width ∧
    ((resizeCanvases host w).dustCanvas.height : ℤ) = Int.floor host.rect.height ∧
    (∀ n : ℕ, host.rect.width = n → (resizeCanvases host w).dustCanvas.width = n) ∧
    (∀ n : ℕ, host.rect.height = n → (resizeCanvases host w).dustCanvas.height = n) ∧
    (resizeCanvases host w).dustCanvas.left = some host.rect.left ∧
    (resizeCanvases host w).dustCanvas.top = some host.rect.top ∧
    (resizeCanvases host w).dustCanvas.absolute = true ∧
    (resizeCanvases host w).confettiCanvas.width = host.innerWidth ∧
    (resizeCanvases host w).confettiCanvas.height = host.innerHeight := by
  have e1 := setDim_floor 300 host.rect.width hw0 hw1
  have e2 := setDim_floor 150 host.rect.height hh0 hh1
  refine ⟨e1, e2, ?_, ?_, rfl, rfl, rfl, setDim_natCast 300 _ hiw, setDim_natCast 150 _ hih⟩
  · intro n hn
    have : ((setDim 300 host.rect.width : ℕ) : ℤ) = (n : ℤ) := by
      rw [e1, hn, Int.floor_natCast]
    exact_mod_cast this
  · intro n hn
    have : ((setDim 150 host.rect.height : ℕ) : ℤ) = (n : ℤ) := by
      rw [e2, hn, Int.floor_natCast]
    exact_mod_cast this

/-- Witness for C6: the degenerate 0 x 0 rectangle in an 800 x 600 viewport. -/
theorem resizeCanvases_geometry_witness :
    (resizeCanvases (hostOf 0 0 0) world0).dustCanvas.width = 0 ∧
    (resizeCanvases (hostOf 0 0 0) world0).dustCanvas.height = 0 ∧
    (resizeCanvases (hostOf 0 0 0) world0).confettiCanvas.width = 800 ∧
    (resizeCanvases (hostOf 0 0 0) world0).confettiCanvas.height = 600 := by
  have h := resizeCanvases_geometry (hostOf 0 0 0) world0 (by norm_num [hostOf])
    (by norm_num [hostOf]) (by norm_num [hostOf]) (by norm_num [hostOf])
    (by norm_num [hostOf]) (by norm_num [hostOf])
  exact ⟨h.2.2.1 0 (by norm_num [hostOf]), h.2.2.2.1 0 (by norm_num [hostOf]),
    h.2.2.2.2.2.2.2.1, h.2.2.2.2.2.2.2.2⟩

/-! ## Theorems: unavailable drawing context -/

/-- C8 as stated fails for `resizeCanvases` and `triggerConfetti`: with neither
context available, `resizeCanvases()` still changes the geometry of both
surfaces, and `triggerConfetti()` still plays the success sound. -/
theorem no_context_not_all_noops :
    worldNoCtx.dustCtx = false ∧ worldNoCtx.confettiCtx = false ∧
    worldNoCtx.dustCanvas.width = 300 ∧
    (resizeCanvases (hostOf 400 200 0) worldNoCtx).dustCanvas.width = 400 ∧
    worldNoCtx.confettiCanvas.width = 300 ∧
    (resizeCanvases (hostOf 400 200 0) worldNoCtx).confettiCanvas.width = 800 ∧
    worldNoCtx.successPlays = 0 ∧
    (triggerConfetti (hostOf 400 200 0) 0 worldNoCtx).successPlays = 1 := by
  have h := setDim_natCast 300 400 (by norm_num)
  have h' := setDim_natCast 300 800 (by norm_num)
  refine ⟨rfl, rfl, rfl, ?_, rfl, ?_, rfl, ?_⟩
  · show setDim 300 (400 : ℚ) = 400
    exact_mod_cast h
  · show setDim 300 ((800 : ℕ) : ℚ) = 800
    exact h'
  · simp [triggerConfetti, drawConfettiOnce, worldNoCtx, world0]

/-- C8, amended, surface by surface: when the dust context is unavailable
(whatever the confetti context), `startDust` and `animateDust` return at entry
and leave the whole state as it was; when the confetti context is unavailable
(whatever the dust context), `initConfetti` and `drawConfettiOnce` return at
entry and leave the whole state as it was, and `triggerConfetti` changes nothing
but the sound cue it plays first; `resizeCanvases` checks neither context: in
every state it sets the geometry of both surfaces and leaves the contexts, the
particle arrays and the scheduled callbacks as they were. -/
theorem no_context_noops (host : Host) (w : World) (duration now : ℤ) :
    (w.dustCtx = false → startDust host w = w ∧ animateDust host w = w) ∧
    (w.confettiCtx = false →
      initConfetti host w = w ∧
      drawConfettiOnce host duration now w = w ∧
      triggerConfetti host now w = { w with successPlays := w.successPlays + 1 }) ∧
    (resizeCanvases host w).dustCanvas =
      { width := setDim 300 host.rect.width, height := setDim 150 host.rect.height,
        left := some host.rect.left, top := some host.rect.top, absolute := true } ∧
    (resizeCanvases host w).confettiCanvas =
      { w.confettiCanvas with
        width := setDim 300 host.innerWidth, height := setDim 150 host.innerHeight } ∧
    (resizeCanvases host w).dustCtx = w.dustCtx ∧
    (resizeCanvases host w).confettiCtx = w.confettiCtx ∧
    (resizeCanvases host w).dustParticles = w.dustParticles ∧
    (resizeCanvases host w).confettiParticles = w.confettiParticles ∧
    (resizeCanvases host w).intervals = w.intervals ∧
    (resizeCanvases host w).frames = w.frames ∧
    (resizeCanvases host w).resizeListeners = w.resizeListeners := by
  refine ⟨?_, ?_, rfl, rfl, rfl, rfl, rfl, rfl, rfl, rfl, rfl⟩
  · intro hd
    exact ⟨by simp [startDust, hd], by simp [animateDust, hd]⟩
  · intro hc
    exact ⟨by simp [initConfetti, hc], by simp [drawConfettiOnce, hc],
      by simp [triggerConfetti, drawConfettiOnce, hc]⟩

/-- Witness for C8: the state `worldNoDustCtx`, where only the dust context is
missing, and the state `worldNoConfettiCtx`, where only the confetti context is
missing. -/
theorem no_context_noops_witness :
    (worldNoDustCtx.dustCtx = false ∧ worldNoDustCtx.confettiCtx = true ∧
      startDust (hostOf 400 200 0) worldNoDustCtx = worldNoDustCtx ∧
      animateDust (hostOf 400 200 0) worldNoDustCtx = worldNoDustCtx) ∧
    (worldNoConfettiCtx.confettiCtx = false ∧ worldNoConfettiCtx.dustCtx = true ∧
      initConfetti (hostOf 400 200 0) worldNoConfettiCtx = worldNoConfettiCtx ∧
      drawConfettiOnce (hostOf 400 200 0) 3000 0 worldNoConfettiCtx = worldNoConfettiCtx) :=
  ⟨⟨rfl, rfl, (no_context_noops (hostOf 400 200 0) worldNoDustCtx 3000 0).1 rfl⟩,
   ⟨rfl, rfl,
    ((no_context_noops (hostOf 400 200 0) worldNoConfettiCtx 3000 0).2.1 rfl).1,
    ((no_context_noops (hostOf 400 200 0) worldNoConfettiCtx 3000 0).2.1 rfl).2.1⟩⟩

/-! ## Theorems: the burst timer -/

theorem intervalTick_running (host : Host) (now : ℤ) (iv : Interval) (w : World)
    (h : ¬ now - iv.start > iv.duration) :
    (intervalTick host now iv w).intervals = w.intervals := by
  simp [intervalTick, h]

theorem intervalTick_expired (host : Host) (now : ℤ) (iv : Interval) (w : World)
    (h : now - iv.start > iv.duration) :
    (intervalTick host now iv w).intervals = w.intervals.filter (fun j => j.id ≠ iv.id) ∧
    (intervalTick host now iv w).confettiLog.getLast? =
      some (CanvasOp.clearRect 0 0 w.confettiCanvas.width w.confettiCanvas.height) := by
  constructor
  · simp [intervalTick, h]
  · simp only [intervalTick, if_pos h]
    exact List.getLast?_concat _

theorem intervalTick_intervals_length (host : Host) (now : ℤ) (iv : Interval) (w : World) :
    (intervalTick host now iv w).intervals.length ≤ w.intervals.length := by
  by_cases h : now - iv.start > iv.duration
  · rw [(intervalTick_expired host now iv w h).1]
    exact List.length_filter_le _ _
  · rw [intervalTick_running host now iv w h]

theorem fireTimer_intervals_length (host : Host) (now : ℤ) (id : ℕ) (w : World) :
    (fireTimer host now id w).intervals.length ≤ w.intervals.length := by
  unfold fireTimer
  split
  · exact le_refl _
  · exact intervalTick_intervals_length host now _ w

theorem drawConfettiOnce_intervals (host : Host) (duration now : ℤ) (w : World)
    (hc : w.confettiCtx = true) :
    (drawConfettiOnce host duration now w).intervals =
      w.intervals ++ [{ id := w.nextTimer, start := now, duration := duration }] ∧
    (drawConfettiOnce host duration now w).confettiCanvas = w.confettiCanvas := by
  simp [drawConfettiOnce, initConfetti, hc]

theorem triggerConfetti_intervals_length (host : Host) (now : ℤ) (w : World) :
    (triggerConfetti host now w).intervals.length ≤ w.intervals.length + 1 := by
  unfold triggerConfetti drawConfettiOnce initConfetti
  split
  · simp
  · simp

theorem burstRun_intervals_length (host : Host) :
    ∀ (es : List BurstEvent) (w : World),
      (burstRun host es w).intervals.length ≤ w.intervals.length + triggerCount es := by
  intro es
  induction es with
  | nil => intro w; simp [burstRun, triggerCount]
  | cons e es ih =>
    intro w
    cases e with
    | trigger now =>
      have h1 := ih (burstStep host w (BurstEvent.trigger now))
      have h2 := triggerConfetti_intervals_length host now w
      simp only [burstRun, triggerCount, burstStep] at h1 ⊢
      omega
    | fire now id =>
      have h1 := ih (burstStep host w (BurstEvent.fire now id))
      have h2 := fireTimer_intervals_length host now id w
      simp only [burstRun, triggerCount, burstStep] at h1 ⊢
      omega

/-- C2 as stated fails: `triggerConfetti()` called at time 0 and again at time
100, well before the first burst's deadline of 3000 ms, leaves two repeating
callbacks scheduled, the first burst's among them. -/
theorem second_trigger_keeps_first_callback :
    (burstRun (hostOf 300 150 (1 / 2)) [BurstEvent.trigger 0, BurstEvent.trigger 100]
      world0).intervals =
      [{ id := 1, start := 0, duration := 3000 }, { id := 2, start := 100, duration := 3000 }] ∧
    ¬ (burstRun (hostOf 300 150 (1 / 2)) [BurstEvent.trigger 0, BurstEvent.trigger 100]
      world0).intervals.length ≤ 1 := by
  have h : (burstRun (hostOf 300 150 (1 / 2)) [BurstEvent.trigger 0, BurstEvent.trigger 100]
      world0).intervals =
      [{ id := 1, start := 0, duration := 3000 }, { id := 2, start := 100, duration := 3000 }] := by
    simp [burstRun, burstStep, triggerConfetti, drawConfettiOnce, initConfetti, world0]
  refine ⟨h, ?_⟩
  rw [h]
  simp

/-- C2, amended: a call of `triggerConfetti()` cancels no repeating callback: it
schedules one more, whichever bursts are still running; a callback is cancelled
only by its own run, once its own deadline has passed, and is otherwise kept.
So in every state reachable by triggers and ticks, the number of active
repeating callbacks is at most the number there was at the start plus the
number of triggers. -/
theorem trigger_adds_callback (host : Host) (w : World) (now : ℤ) (es : List BurstEvent)
    (hc : w.confettiCtx = true) :
    (triggerConfetti host now w).intervals =
      w.intervals ++ [{ id := w.nextTimer, start := now, duration := 3000 }] ∧
    (∀ (t : ℤ) (iv : Interval),
      (intervalTick host t iv w).intervals =
        if t - iv.start > iv.duration then w.intervals.filter (fun j => j.id ≠ iv.id)
        else w.intervals) ∧
    (burstRun host es w).intervals.length ≤ w.intervals.length + triggerCount es := by
  refine ⟨?_, ?_, burstRun_intervals_length host es w⟩
  · simp [triggerConfetti, drawConfettiOnce, initConfetti, hc]
  · intro t iv
    by_cases h : t - iv.start > iv.duration
    · rw [if_pos h, (intervalTick_expired host t iv w h).1]
    · rw [if_neg h, intervalTick_running host t iv w h]

/-- Witness for C2: the page state `world0`, a trigger at time 0, then a
trigger and a tick of the first timer at time 16. -/
theorem trigger_adds_callback_witness :
    (triggerConfetti (hostOf 300 150 (1 / 2)) 0 world0).intervals =
      world0.intervals ++ [{ id := world0.nextTimer, start := 0, duration := 3000 }] ∧
    (burstRun (hostOf 300 150 (1 / 2)) [BurstEvent.trigger 16, BurstEvent.fire 16 1]
      world0).intervals.length ≤
        world0.intervals.length +
          triggerCount [BurstEvent.trigger 16, BurstEvent.fire 16 1] :=
  ⟨(trigger_adds_callback (hostOf 300 150 (1 / 2)) world0 0
      [BurstEvent.trigger 16, BurstEvent.fire 16 1] rfl).1,
   (trigger_adds_callback (hostOf 300 150 (1 / 2)) world0 0
      [BurstEvent.trigger 16, BurstEvent.fire 16 1] rfl).2.2⟩

theorem fireTimer_single_running (host : Host) (now t0 : ℤ) (id : ℕ) (w : World)
    (hi : w.intervals = [{ id := id, start := t0, duration := 3000 }])
    (h : now - t0 ≤ 3000) :
    (fireTimer host now id w).intervals = [{ id := id, start := t0, duration := 3000 }] ∧
    (fireTimer host now id w).confettiCanvas = w.confettiCanvas := by
  have e : fireTimer host now id w =
      intervalTick host now { id := id, start := t0, duration := 3000 } w := by
    simp [fireTimer, hi]
  rw [e, intervalTick_canvas, intervalTick_running host now _ w (by simpa using h), hi]
  exact ⟨rfl, rfl⟩

theorem fireTimer_single_expired (host : Host) (now t0 : ℤ) (id : ℕ) (w : World)
    (hi : w.intervals = [{ id := id, start := t0, duration := 3000 }])
    (h : now - t0 > 3000) :
    (fireTimer host now id w).intervals = [] ∧
    (fireTimer host now id w).confettiCanvas = w.confettiCanvas ∧
    (fireTimer host now id w).confettiLog.getLast? =
      some (CanvasOp.clearRect 0 0 w.confettiCanvas.width w.confettiCanvas.height) := by
  have e : fireTimer host now id w =
      intervalTick host now { id := id, start := t0, duration := 3000 } w := by
    simp [fireTimer, hi]
  obtain ⟨h1, h2⟩ := intervalTick_expired host now
    { id := id, start := t0, duration := 3000 } w h
  rw [e, intervalTick_canvas, h1, h2, hi]
  simp

theorem fireTimer_none (host : Host) (now : ℤ) (id : ℕ) (w : World)
    (hi : w.intervals = []) : fireTimer host now id w = w := by
  simp [fireTimer, hi]

theorem runTicks_running (host : Host) (t0 : ℤ) (id : ℕ) (w : World)
    (hi : w.intervals = [{ id := id, start := t0, duration := 3000 }]) :
    ∀ n : ℕ, n ≤ 187 →
      (runTicks host t0 id n w).intervals = [{ id := id, start := t0, duration := 3000 }] ∧
      (runTicks host t0 id n w).confettiCanvas = w.confettiCanvas := by
  intro n
  induction n with
  | zero => intro _; exact ⟨hi, rfl⟩
  | succ n ih =>
    intro hn
    obtain ⟨h1, h2⟩ := ih (by omega)
    have hle : (t0 + 16 * ((n : ℤ) + 1)) - t0 ≤ 3000 := by
      have : (n : ℤ) ≤ 186 := by exact_mod_cast (by omega : n ≤ 186)
      linarith
    obtain ⟨k1, k2⟩ := fireTimer_single_running host _ t0 id _ h1 hle
    exact ⟨k1, by rw [runTicks, k2, h2]⟩

theorem runTicks_expired (host : Host) (t0 : ℤ) (id : ℕ) (w : World)
    (hi : w.intervals = [{ id := id, start := t0, duration := 3000 }]) :
    ∀ m : ℕ,
      (runTicks host t0 id (188 + m) w).intervals = [] ∧
      (runTicks host t0 id (188 + m) w).confettiLog.getLast? =
        some (CanvasOp.clearRect 0 0 w.confettiCanvas.width w.confettiCanvas.height) := by
  intro m
  induction m with
  | zero =>
    obtain ⟨h1, h2⟩ := runTicks_running host t0 id w hi 187 (le_refl _)
    have hgt : (t0 + 16 * (((187 : ℕ) : ℤ) + 1)) - t0 > 3000 := by norm_num
    obtain ⟨k1, _, k3⟩ := fireTimer_single_expired host _ t0 id _ h1 hgt
    rw [h2] at k3
    exact ⟨k1, k3⟩
  | succ m ih =>
    obtain ⟨h1, h2⟩ := ih
    have e : runTicks host t0 id (188 + (m + 1)) w = runTicks host t0 id (188 + m) w := by
      show fireTimer host _ id (runTicks host t0 id (188 + m) w) = _
      exact fireTimer_none host _ id _ h1
    rw [e]
    exact ⟨h1, h2⟩

/-- C3: for a single burst triggered with duration 3000 ms at time `t0`, whose
callback fires every 16 ms (firing `k` at `t0 + 16 * k`): at every elapsed time
`T >= 3016` ms the callback is no longer scheduled and the last call made on the
burst context is a `clearRect` of the full surface; at every elapsed time
`T <= 3000` ms the callback is still scheduled. -/
theorem burst_hard_deadline (host : Host) (w : World) (t0 : ℤ) (T : ℕ)
    (hc : w.confettiCtx = true) (hi : w.intervals = []) :
    (T ≤ 3000 →
      (runTicks host t0 w.nextTimer (T / 16) (drawConfettiOnce host 3000 t0 w)).intervals =
        [{ id := w.nextTimer, start := t0, duration := 3000 }]) ∧
    (3016 ≤ T →
      (runTicks host t0 w.nextTimer (T / 16) (drawConfettiOnce host 3000 t0 w)).intervals = [] ∧
      (runTicks host t0 w.nextTimer (T / 16)
          (drawConfettiOnce host 3000 t0 w)).confettiLog.getLast? =
        some (CanvasOp.clearRect 0 0 w.confettiCanvas.width w.confettiCanvas.height)) := by
  obtain ⟨h1, h2⟩ := drawConfettiOnce_intervals host 3000 t0 w hc
  rw [hi, List.nil_append] at h1
  constructor
  · intro hT
    exact (runTicks_running host t0 w.nextTimer _ h1 (T / 16) (by omega)).1
  · intro hT
    obtain ⟨m, hm⟩ : ∃ m, T / 16 = 188 + m := ⟨T / 16 - 188, by omega⟩
    rw [hm, ← h2]
    exact runTicks_expired host t0 w.nextTimer _ h1 m

/-- Witness for C3: the page state `world0`, a burst triggered at time 0, seen
3000 ms and 3016 ms later. -/
theorem burst_hard_deadline_witness :
    (runTicks (hostOf 300 150 (1 / 2)) 0 world0.nextTimer (3000 / 16)
      (drawConfettiOnce (hostOf 300 150 (1 / 2)) 3000 0 world0)).intervals =
        [{ id := world0.nextTimer, start := 0, duration := 3000 }] ∧
    (runTicks (hostOf 300 150 (1 / 2)) 0 world0.nextTimer (3016 / 16)
      (drawConfettiOnce (hostOf 300 150 (1 / 2)) 3000 0 world0)).intervals = [] ∧
    (runTicks (hostOf 300 150 (1 / 2)) 0 world0.nextTimer (3016 / 16)
        (drawConfettiOnce (hostOf 300 150 (1 / 2)) 3000 0 world0)).confettiLog.getLast? =
      some (CanvasOp.clearRect 0 0 world0.confettiCanvas.width
        world0.confettiCanvas.height) :=
  ⟨(burst_hard_deadline (hostOf 300 150 (1 / 2)) world0 0 3000 rfl rfl).1 (le_refl _),
   (burst_hard_deadline (hostOf 300 150 (1 / 2)) world0 0 3016 rfl rfl).2 (le_refl _)⟩

end SmartTimeEstimator
